import Mathlib

/-!
Verification development for the outlook-mcp repository.

This file gives a shallow embedding, in Lean 4, of the token lifecycle
manager and the paginated Microsoft Graph API client of the repository,
and proves (or refutes) the frozen claims about them.

Embedding conventions:
* JS strings are Lean `String`s (or `List Char` where character-level
  reasoning on URL encodings is needed).
* A JS value that may be `undefined` is an `Option`.
* JS truthiness on strings (`undefined`/`""` falsy) is `truthyStr`.
* Timestamps (`Date.now()`, `expires_at`) are `Int` milliseconds.
* Network I/O is an explicit environment argument: for pagination, a
  function from (1-based fetch number, url) to the JSON page returned;
  for token refresh, a `RefreshOutcome` describing how the single
  token-endpoint round trip (and the subsequent file write) ends.
* The JS `do/while` pagination loop of `src/unnamed/part_001` is bounded
  by its own page-count ceiling; we realize the loop as structural
  recursion on `budget = MAX_PAGINATION_PAGES - pageCount`, the loop
  variant, keeping the source's `pageCount` counter as an argument so
  that every stop condition is checked exactly as in the source.
* The loop of `src/utils/graph-api.js` has no ceiling, hence no variant;
  it is embedded with an explicit observation `fuel`: a result of `none`
  means the loop was still running after `fuel` iterations.
* `encodeURIComponent` / `URLSearchParams` are modelled character-wise.
  The model is faithful for code points below 128 (the JS functions
  percent-encode non-ASCII input via UTF-8 multibyte sequences, which we
  do not model); theorems about encodings therefore carry an
  ASCII-input hypothesis `asciiL`.

The repository keeps several competing implementations of the same
modules; namespaces `GraphP1` (src/unnamed/part_001), `GraphJs`
(src/utils/graph-api.js), `TokStore` (the multi-account `TokenStorage`
class in src/unnamed/part_003), `TokMgr` (src/auth/token-manager.js)
and `TokV2` (the simple `TokenStorage` class at the end of
src/unnamed/part_003) keep the variants apart.
-/

set_option autoImplicit false

namespace OutlookMCP

/-- JS truthiness of a possibly-`undefined` string: `undefined` and `""`
are falsy, every other string is truthy. -/
def truthyStr : Option String → Bool
  | none => false
  | some s => s ≠ ""

/-- `obj[k]` on a JS object modelled as an association list (JS object
keys are unique; lookup returns the first binding). -/
def objLookup {β : Type} (k : String) : List (String × β) → Option β
  | [] => none
  | p :: ps => if p.1 = k then some p.2 else objLookup k ps

/-- `delete obj[k]` on a JS object modelled as an association list. -/
def objDelete {β : Type} (k : String) (ps : List (String × β)) : List (String × β) :=
  ps.filter (fun p => p.1 ≠ k)

/-! ### Paginated API client -/

/-- One page of the remote response: `value` is the item array when the
field is present and an array, `nextLink` is `@odata.nextLink`. -/
structure GraphResponse (α : Type) where
  value : Option (List α)
  nextLink : Option String
  deriving Repr, DecidableEq

/-- `config.MAX_PAGINATION_PAGES` from `src/config.js`. -/
def MAX_PAGINATION_PAGES : Nat := 100

/-- Effective next link: `while (nextLink)` / `if (nextLink)` use JS
truthiness, so an empty-string link ends the loop like an absent one. -/
def effNextLink : Option String → Option String
  | none => none
  | some s => if s = "" then none else some s

/-- Aggregated outcome of a paginated call, instrumented with the number
of pages fetched and the per-page item lists (`pageLog`), so that claims
about "items accumulated from the fetched pages" can be stated. -/
structure PaginatedOutcome (α : Type) where
  value : List α
  odataCount : Nat
  pagesFetched : Nat
  pageLog : List (List α)
  deriving Repr, DecidableEq

namespace GraphP1

/-- Loop body of `callGraphAPIPaginated` in `src/unnamed/part_001`
(lines 158-192).  Each iteration does, in source order:
1. `pageCount++` and the ceiling check `pageCount > MAX_PAGINATION_PAGES`
   (break before fetching anything);
2. the fetch `callGraphAPI(...)` (modelled by `env`);
3. push `response.value` items when the field is an array;
4. the `maxCount > 0 && allItems.length >= maxCount` break;
5. follow `@odata.nextLink` when truthy, else exit the `while`.
`budget` is `MAX_PAGINATION_PAGES - pageCount`, the loop variant; the
wrapper below starts it at `MAX_PAGINATION_PAGES` so `budget = 0` holds
exactly when the source's ceiling check `pageCount + 1 > MAX` fires. -/
def paginateGo {α : Type} (env : Nat → String → GraphResponse α) (maxCount : Nat) :
    Nat → String → List α → List (List α) → Nat → List α × List (List α) × Nat
  | 0, _, items, log, pageCount => (items, log, pageCount)
  | budget + 1, url, items, log, pageCount =>
    let resp := env (pageCount + 1) url
    let pageItems := (resp.value).getD []
    let items2 := items ++ pageItems
    let log2 := log ++ [pageItems]
    if 0 < maxCount ∧ maxCount ≤ items2.length then (items2, log2, pageCount + 1)
    else
      match effNextLink resp.nextLink with
      | none => (items2, log2, pageCount + 1)
      | some nl => paginateGo env maxCount budget nl items2 log2 (pageCount + 1)

/-- `callGraphAPIPaginated` from `src/unnamed/part_001` (lines 147-207):
rejects non-GET methods, runs the cursor-following loop from the given
path with `pageCount = 0`, then trims to `maxCount` when positive and
reports `@odata.count` as the length of the trimmed list. -/
def callGraphAPIPaginated {α : Type} (env : Nat → String → GraphResponse α)
    (method path : String) (maxCount : Nat) : Except String (PaginatedOutcome α) :=
  if method ≠ "GET" then .error "Pagination only supports GET requests"
  else
    let r := paginateGo env maxCount MAX_PAGINATION_PAGES path [] [] 0
    let finalItems := if 0 < maxCount then r.1.take maxCount else r.1
    .ok ⟨finalItems, finalItems.length, r.2.2, r.2.1⟩

end GraphP1

namespace GraphJs

/-- Loop body of `callGraphAPIPaginated` in `src/utils/graph-api.js`
(lines 147-172).  Identical to the `part_001` loop except that there is
no page-count ceiling: the `do/while` has no termination safeguard, so
this embedding carries an observation bound `fuel`; `none` in the first
component means the loop was still running after `fuel` fetches.  The
second component is the number of fetches performed. -/
def paginateGo {α : Type} (env : Nat → String → GraphResponse α) (maxCount : Nat) :
    Nat → String → List α → Nat → Option (List α) × Nat
  | 0, _, _, pages => (none, pages)
  | fuel + 1, url, items, pages =>
    let resp := env (pages + 1) url
    let items2 := items ++ (resp.value).getD []
    if 0 < maxCount ∧ maxCount ≤ items2.length then (some items2, pages + 1)
    else
      match effNextLink resp.nextLink with
      | none => (some items2, pages + 1)
      | some nl => paginateGo env maxCount fuel nl items2 (pages + 1)

/-- `callGraphAPIPaginated` from `src/utils/graph-api.js` (lines 136-187),
observed for at most `fuel` iterations: `.ok none` means the call had not
returned yet after `fuel` page fetches. -/
def callGraphAPIPaginated {α : Type} (env : Nat → String → GraphResponse α)
    (method path : String) (maxCount fuel : Nat) :
    Except String (Option (PaginatedOutcome α)) :=
  if method ≠ "GET" then .error "Pagination only supports GET requests"
  else
    match paginateGo env maxCount fuel path [] 0 with
    | (none, _) => .ok none
    | (some allItems, pages) =>
      let finalItems := if 0 < maxCount then allItems.take maxCount else allItems
      .ok (some ⟨finalItems, finalItems.length, pages, []⟩)

end GraphJs

/-- A remote endpoint whose every page carries one item and a
continuation cursor pointing back at the same URL: the cursor loop of
claim C1. -/
def loopingEnv : Nat → String → GraphResponse Nat :=
  fun _ _ => ⟨some [0], some "https://g/loop"⟩

/-- Remote endpoint returning pages of 10 items each, every page with a
continuation cursor; the items are numbered consecutively so that "the
first 25 items in page order" is `List.range 25`. -/
def pagesOf10Env : Nat → String → GraphResponse Nat :=
  fun page _ => ⟨some ((List.range 10).map (fun j => (page - 1) * 10 + j)), some "https://g/next"⟩

/-! ### URI / query-string encoding

Character-level models of the pieces of URL handling the single-call
primitive `callGraphAPI` uses: `encodeURIComponent`,
`decodeURIComponent` (what the receiving server applies to a query
parameter value), and `URLSearchParams` serialization/parsing
(application/x-www-form-urlencoded). -/

/-- Uppercase hex digit, as produced by JS percent-encoding. -/
def hexDigit (n : Nat) : Char :=
  "0123456789ABCDEF".data.getD n '0'

/-- Numeric value of a hex digit character (either case), `none` for
non-hex characters. -/
def hexVal (c : Char) : Option Nat :=
  let n := c.toNat
  if 48 ≤ n && n ≤ 57 then some (n - 48)
  else if 65 ≤ n && n ≤ 70 then some (n - 55)
  else if 97 ≤ n && n ≤ 102 then some (n - 87)
  else none

/-- `%HH` escape of one character (faithful for code points < 256;
theorems restrict to ASCII anyway). -/
def percentEncodeChar (c : Char) : List Char :=
  ['%', hexDigit (c.toNat / 16), hexDigit (c.toNat % 16)]

/-- Characters `encodeURIComponent` leaves unescaped:
`A-Z a-z 0-9 - _ . ! ~ * ' ( )`. -/
def isUriUnreserved (c : Char) : Bool :=
  let n := c.toNat
  (65 ≤ n && n ≤ 90) || (97 ≤ n && n ≤ 122) || (48 ≤ n && n ≤ 57) ||
    (n == 45 || n == 95 || n == 46 || n == 33 || n == 126 || n == 42 ||
      n == 39 || n == 40 || n == 41)

/-- `encodeURIComponent`, character list form. -/
def encodeURIComponentList : List Char → List Char
  | [] => []
  | c :: cs =>
    (if isUriUnreserved c then [c] else percentEncodeChar c) ++ encodeURIComponentList cs

/-- `encodeURIComponent` on strings. -/
def encodeURIComponent (s : String) : String :=
  ⟨encodeURIComponentList s.data⟩

/-- `decodeURIComponent`, character list form: a `%HH` sequence decodes
to the character with code `HH`; anything else passes through (JS raises
`URIError` on malformed escapes, which never arise on encoder output). -/
def decodeURIComponentList : List Char → List Char
  | [] => []
  | '%' :: h :: l :: cs2 =>
    match hexVal h, hexVal l with
    | some hv, some lv => Char.ofNat (16 * hv + lv) :: decodeURIComponentList cs2
    | _, _ => '%' :: h :: l :: decodeURIComponentList cs2
  | c :: cs => c :: decodeURIComponentList cs

/-- Characters the `URLSearchParams` serializer leaves unescaped:
`A-Z a-z 0-9 * - . _` (space becomes `+`). -/
def isFormUnreserved (c : Char) : Bool :=
  let n := c.toNat
  (65 ≤ n && n ≤ 90) || (97 ≤ n && n ≤ 122) || (48 ≤ n && n ≤ 57) ||
    (n == 42 || n == 45 || n == 46 || n == 95)

/-- One character of `URLSearchParams` serialization. -/
def formEncodeChar (c : Char) : List Char :=
  if c = ' ' then ['+'] else if isFormUnreserved c then [c] else percentEncodeChar c

/-- `URLSearchParams` serialization of one string. -/
def formEncodeList : List Char → List Char
  | [] => []
  | c :: cs => formEncodeChar c ++ formEncodeList cs

/-- `URLSearchParams` parsing of one token: `+` means space, `%HH`
decodes, malformed escapes pass through. -/
def formDecodeList : List Char → List Char
  | [] => []
  | '%' :: h :: l :: cs2 =>
    match hexVal h, hexVal l with
    | some hv, some lv => Char.ofNat (16 * hv + lv) :: formDecodeList cs2
    | _, _ => '%' :: h :: l :: formDecodeList cs2
  | '+' :: cs => ' ' :: formDecodeList cs
  | c :: cs => c :: formDecodeList cs

/-- `String.prototype.split(sep)` on character lists. -/
def splitChar (sep : Char) : List Char → List (List Char)
  | [] => [[]]
  | c :: cs =>
    if c = sep then [] :: splitChar sep cs
    else
      match splitChar sep cs with
      | [] => [[c]]
      | g :: gs => (c :: g) :: gs

/-- Join with a separator character (inverse of `splitChar` on
separator-free groups). -/
def joinSep (sep : Char) : List (List Char) → List Char
  | [] => []
  | [x] => x
  | x :: y :: ys => x ++ sep :: joinSep sep (y :: ys)

/-- Split a `name=value` token at the first `=` (no `=` means empty
value), as `URLSearchParams` parsing does. -/
def splitFirstEq (l : List Char) : List Char × List Char :=
  (l.takeWhile (· ≠ '='), (l.dropWhile (· ≠ '=')).drop 1)

/-- `new URLSearchParams(query).entries()`: split on `&`, drop empty
tokens, split each at the first `=`, form-decode names and values. -/
def parseQS (s : String) : List (String × String) :=
  if s.data = [] then []
  else
    ((splitChar '&' s.data).filter (· ≠ [])).map (fun comp =>
      (⟨formDecodeList (splitFirstEq comp).1⟩, ⟨formDecodeList (splitFirstEq comp).2⟩))

/-- `URLSearchParams.toString()` over the appended entries. -/
def serializeParamsL (ps : List (String × String)) : List Char :=
  joinSep '&' (ps.map (fun p => formEncodeList p.1.data ++ '=' :: formEncodeList p.2.data))

/-- Every character of `l` is ASCII (the fragment of
`encodeURIComponent` we model faithfully). -/
def asciiL (l : List Char) : Prop :=
  ∀ c ∈ l, c.toNat < 128

instance asciiL.decidable (l : List Char) : Decidable (asciiL l) := by
  unfold asciiL
  infer_instance

namespace GraphJs

/-- Query-string construction of `callGraphAPI` in
`src/utils/graph-api.js` (lines 41-73), for a relative path outside test
mode.  Returns the query string (leading `?` included when non-empty)
and the `queryParams` object as the caller observes it after the call —
the source does `delete queryParams.$filter` on the caller's object when
the filter value is truthy.  The `$filter` value is pulled out before
the generic `URLSearchParams` serialization and appended separately with
one `encodeURIComponent` pass. -/
def buildQueryString (queryParams : List (String × String)) :
    List Char × List (String × String) :=
  if queryParams = [] then ([], queryParams)
  else
    let filter := objLookup "$filter" queryParams
    let qp2 := if truthyStr filter then objDelete "$filter" queryParams else queryParams
    let qs1 := serializeParamsL qp2
    let qs2 :=
      if truthyStr filter then
        if qs1 ≠ [] then
          qs1 ++ '&' :: ("$filter=".data ++ encodeURIComponentList (filter.getD "").data)
        else "$filter=".data ++ encodeURIComponentList (filter.getD "").data
      else qs1
    ((if qs2 ≠ [] then '?' :: qs2 else []), qp2)

end GraphJs

namespace GraphP1

/-- URL construction of `callGraphAPI` in `src/unnamed/part_001`
(lines 34-85), for a relative path outside test mode.  Returns the
encoded path and the query string.  The path is split at `?`
(destructuring keeps only the first two segments, as
`const [rawPath, rawQuery] = path.split('?')` does); a `$filter` found
in the path's own query string is remembered as pre-encoded — but it is
taken from `URLSearchParams.entries()`, which has already form-decoded
it — while a `$filter` in `queryParams` overrides it (even an empty
one: the source tests `$filter !== undefined`) and is marked for one
`encodeURIComponent` pass.  This variant does not mutate the caller's
`queryParams`. -/
def buildQueryString (path : String) (queryParams : List (String × String)) :
    List Char × List Char :=
  let parts := splitChar '?' path.data
  let rawPath := parts.headD []
  let rawQuery := (parts.drop 1).headD []
  let existing := if rawQuery = [] then [] else parseQS ⟨rawQuery⟩
  let exFilter := ((existing.filter (fun p => p.1 = "$filter")).map Prod.snd).getLast?
  let exRest := existing.filter (fun p => p.1 ≠ "$filter")
  let qpFilter := objLookup "$filter" queryParams
  let filter : Option String := match qpFilter with | some v => some v | none => exFilter
  let preEncoded : Bool := match qpFilter with | some _ => false | none => exFilter.isSome
  let params := exRest ++ objDelete "$filter" queryParams
  let qs1 := serializeParamsL params
  let qs2 := if qs1 ≠ [] then '?' :: qs1 else []
  let qs3 :=
    match filter with
    | none => qs2
    | some f =>
      let sep : Char := if qs2 ≠ [] then '&' else '?'
      let encF := if preEncoded then f.data else encodeURIComponentList f.data
      qs2 ++ sep :: ("$filter=".data ++ encF)
  (joinSep '/' ((splitChar '/' rawPath).map encodeURIComponentList), qs3)

end GraphP1

/-- The matcher `leadsWith p l`: `l` begins with `p`. -/
def leadsWith : List Char → List Char → Bool
  | [], _ => true
  | _ :: _, [] => false
  | p :: ps, c :: cs => p == c && leadsWith ps cs

/-- What the remote server sees as the `$filter` parameter of a query
string: strip the leading `?`, split on `&`, take the component named
`$filter`, percent-decode its value. -/
def queryFilterValueL (qs : List Char) : Option (List Char) :=
  let body := match qs with | '?' :: r => r | r => r
  match (splitChar '&' body).find? (fun c => leadsWith "$filter=".data c) with
  | some comp => some (decodeURIComponentList (comp.drop 8))
  | none => none

/-! ### Credential store -/

/-- One account's stored token bundle (the JSON object stored under
`accounts[email]`, or the whole legacy document's token fields). -/
structure TokenSet where
  access_token : Option String
  refresh_token : Option String
  expires_in : Option Int
  expires_at : Option Int
  deriving Repr, DecidableEq

/-- The persisted token document.  A JS object may simultaneously carry
the multi-account fields (`accounts`, `activeAccount`) and the legacy
top-level token fields; `refreshAccessToken` in the multi-account
`TokenStorage` class reads the top-level fields even when `accounts` is
present, so the model keeps both. -/
structure TokensDoc where
  accounts : Option (List (String × TokenSet))
  activeAccount : Option String
  access_token : Option String
  refresh_token : Option String
  expires_in : Option Int
  expires_at : Option Int
  deriving Repr, DecidableEq

/-- The token endpoint's JSON answer to a successful refresh. -/
structure RefreshResponse where
  access_token : String
  refresh_token : Option String
  expires_in : Int
  deriving Repr, DecidableEq

/-- How one refresh round trip ends: `success resp saveOk` is a 2xx
answer `resp` followed by a token-file write that succeeds iff `saveOk`;
`failure` is any non-2xx answer, parse error or network error. -/
inductive RefreshOutcome where
  | success (resp : RefreshResponse) (saveOk : Bool)
  | failure
  deriving Repr, DecidableEq

/-- The 5-minute refresh buffer (`refreshTokenBuffer` /
`refreshBufferTime` / `refreshBuffer`, identical in all variants). -/
def REFRESH_BUFFER_MS : Int := 5 * 60 * 1000

/-- Token-object update applied on a successful refresh, shared verbatim
by `src/auth/token-manager.js` (lines 137-144) and the multi-account
class of `src/unnamed/part_003` (lines 270-276): replace
`access_token`, replace `refresh_token` only when the response carries a
truthy one, and recompute `expires_at` as
`Date.now() + expires_in * 1000`. -/
def applyRefreshToDoc (d : TokensDoc) (resp : RefreshResponse) (now : Int) : TokensDoc :=
  { d with
    access_token := some resp.access_token
    refresh_token := if truthyStr resp.refresh_token then resp.refresh_token else d.refresh_token
    expires_in := some resp.expires_in
    expires_at := some (now + resp.expires_in * 1000) }

namespace TokStore

/-- Result of `TokenStorage.refreshAccessToken` in
`src/unnamed/part_003` (lines 234-311): the access token handed to the
caller (`none` models a throw or a rejected promise), the in-memory
`this.tokens` afterwards, and the number of token-endpoint requests
issued. -/
structure RefreshResult where
  token : Option String
  doc : Option TokensDoc
  requests : Nat
  deriving Repr, DecidableEq

/-- `TokenStorage.refreshAccessToken` (src/unnamed/part_003 lines
234-311), one call in isolation (the `_refreshPromise` single-flight
guard is modelled separately, see `TokMgr.sfEnter`).  Note the guard at
line 235 reads the TOP-LEVEL `this.tokens.refresh_token`, not the
active account's: with a multi-account document this throws
("No refresh token available...") before any network request.  On a 2xx
answer it mutates the top-level token fields and resolves the new
access token; if the subsequent save fails it rejects (lines 281-288),
the in-memory mutation remaining. -/
def refreshAccessToken (stored : Option TokensDoc) (env : RefreshOutcome) (now : Int) :
    RefreshResult :=
  match stored with
  | none => ⟨none, none, 0⟩
  | some d =>
    if ¬ truthyStr d.refresh_token then ⟨none, some d, 0⟩
    else
      match env with
      | .failure => ⟨none, some d, 1⟩
      | .success resp saveOk =>
        let d2 := applyRefreshToDoc d resp now
        if saveOk then ⟨some resp.access_token, some d2, 1⟩ else ⟨none, some d2, 1⟩

/-- The inline expiry check of the multi-account branch
(line 188): `Date.now() >= (activeTokens.expires_at - buffer)`.  With
`expires_at` undefined the subtraction is `NaN` and the comparison is
false — the token counts as NOT expired. -/
def isExpiredInline (now : Int) (e : Option Int) : Bool :=
  match e with
  | none => false
  | some v => decide (v - REFRESH_BUFFER_MS ≤ now)

/-- `TokenStorage.isTokenExpired` (lines 157-163), used by the legacy
branch: a missing or zero (falsy) `expires_at` counts as expired. -/
def isTokenExpired (now : Int) (d : TokensDoc) : Bool :=
  match d.expires_at with
  | none => true
  | some v => if v = 0 then true else decide (v - REFRESH_BUFFER_MS ≤ now)

/-- Result of `TokenStorage.getValidAccessToken`: token returned to the
caller, in-memory document afterwards, token-endpoint requests issued. -/
structure GVATResult where
  token : Option String
  doc : Option TokensDoc
  requests : Nat
  deriving Repr, DecidableEq

/-- `TokenStorage.getValidAccessToken` (src/unnamed/part_003 lines
165-232).  `stored` is the loaded document (`getTokens()`), `env` how a
refresh round trip would end, `now` the clock.  Multi-account branch:
dangling or falsy `activeAccount` → null; missing `access_token` →
null; expired (inline buffer check) → refresh when the account has a
truthy `refresh_token` (the refresh itself then consults the top-level
one, see `refreshAccessToken`), null on refresh error; otherwise the
stored access token.  Legacy branch (no `accounts` object): missing
`access_token` → null; `isTokenExpired` → refresh when a refresh token
exists, and on refresh error or missing refresh token the tokens are
invalidated (`this.tokens = null`) before returning null. -/
def getValidAccessToken (stored : Option TokensDoc) (env : RefreshOutcome) (now : Int) :
    GVATResult :=
  match stored with
  | none => ⟨none, none, 0⟩
  | some d =>
    match d.accounts with
    | some accts =>
      if ¬ truthyStr d.activeAccount then ⟨none, some d, 0⟩
      else
        match objLookup (d.activeAccount.getD "") accts with
        | none => ⟨none, some d, 0⟩
        | some ts =>
          if ¬ truthyStr ts.access_token then ⟨none, some d, 0⟩
          else if isExpiredInline now ts.expires_at then
            if truthyStr ts.refresh_token then
              let r := refreshAccessToken (some d) env now
              match r.token with
              | some tok => ⟨some tok, r.doc, r.requests⟩
              | none => ⟨none, r.doc, r.requests⟩
            else ⟨none, some d, 0⟩
          else ⟨ts.access_token, some d, 0⟩
    | none =>
      if ¬ truthyStr d.access_token then ⟨none, some d, 0⟩
      else if isTokenExpired now d then
        if truthyStr d.refresh_token then
          let r := refreshAccessToken (some d) env now
          match r.token with
          | some tok => ⟨some tok, r.doc, r.requests⟩
          | none => ⟨none, none, r.requests⟩
        else ⟨none, none, 0⟩
      else ⟨d.access_token, some d, 0⟩

/-- `TokenStorage.getAllAccounts` (src/unnamed/part_003 lines 116-131):
keys of the `accounts` object when present, `["default"]` when only a
legacy truthy `access_token` exists, `[]` otherwise. -/
def getAllAccounts (stored : Option TokensDoc) : List String :=
  match stored with
  | none => []
  | some d =>
    match d.accounts with
    | some accts => accts.map Prod.fst
    | none => if truthyStr d.access_token then ["default"] else []

end TokStore

namespace TokMgr

/-- Result of `refreshAccessToken` in `src/auth/token-manager.js`:
the resolved value (the promise always resolves; `none` is the
resolve(null) failure signal), the cached tokens object afterwards, and
the number of token-endpoint requests issued. -/
structure RefreshResult where
  token : Option String
  cached : Option TokensDoc
  requests : Nat
  deriving Repr, DecidableEq

/-- `refreshAccessToken` from `src/auth/token-manager.js` (lines
94-178), one call in isolation (the `refreshPromise` single-flight guard
is modelled by `sfEnter`).  No tokens or falsy `refresh_token` → resolve
null without a request.  On a 2xx answer the cached object is mutated
in place (lines 137-144); if `saveTokenCache` then fails the promise
resolves NULL (lines 150-153) — the caller is told the refresh failed
even though the token endpoint succeeded and the in-memory object
already holds the new token. -/
def refreshAccessToken (cached : Option TokensDoc) (env : RefreshOutcome) (now : Int) :
    RefreshResult :=
  match cached with
  | none => ⟨none, none, 0⟩
  | some d =>
    if ¬ truthyStr d.refresh_token then ⟨none, some d, 0⟩
    else
      match env with
      | .failure => ⟨none, some d, 1⟩
      | .success resp saveOk =>
        let d2 := applyRefreshToDoc d resp now
        if saveOk then ⟨some resp.access_token, some d2, 1⟩ else ⟨none, some d2, 1⟩

/-- State of the module-level single-flight guard of
`src/auth/token-manager.js`: `refreshPromise` holds the identifier of
the in-flight refresh operation (`none` when idle — the JS variable is
null), `issued` counts outbound token-endpoint requests ever made. -/
structure SFState where
  refreshPromise : Option Nat
  issued : Nat
  deriving Repr, DecidableEq

/-- One caller entering `refreshAccessToken` (lines 96-110), atomic
because there is no suspension point between the `if (refreshPromise)`
check and the assignment of the new promise: if a refresh is in flight
the caller just gets that pending operation; otherwise (when a refresh
token exists) it issues one outbound request and installs the pending
operation.  Returns the operation the caller awaits (`none`: returned
null without any request, line 105). -/
def sfEnter (hasRefreshToken : Bool) (s : SFState) : SFState × Option Nat :=
  match s.refreshPromise with
  | some k => (s, some k)
  | none =>
    if hasRefreshToken then (⟨some s.issued, s.issued + 1⟩, some s.issued) else (s, none)

/-- The pending operation settling (the response `end`/`error` handlers,
lines 161-163 and 167-170): only then is `refreshPromise` cleared. -/
def sfSettle (s : SFState) : SFState :=
  ⟨none, s.issued⟩

/-- `n` callers entering in sequence (any interleaving of callers
between two suspension points is such a sequence, since each entry is
atomic). -/
def sfEnterMany (hasRefreshToken : Bool) : Nat → SFState → SFState × List (Option Nat)
  | 0, s => (s, [])
  | n + 1, s =>
    let r1 := sfEnter hasRefreshToken s
    let r2 := sfEnterMany hasRefreshToken n r1.1
    (r2.1, r1.2 :: r2.2)

end TokMgr

namespace TokV2

/-- Result of `TokenStorage.refreshToken` in the simple class at the end
of `src/unnamed/part_003` (lines 586-663): the resolved token object
(`none`: resolved null), requests issued, and whether the save
succeeded (`saveTokens` returns a boolean and never throws; its result
is ignored by `refreshToken`). -/
structure RefreshResult where
  result : Option TokenSet
  requests : Nat
  savedOk : Bool
  deriving Repr, DecidableEq

/-- `TokenStorage.refreshToken` (src/unnamed/part_003 lines 586-663):
null without a request when the refresh token or the client credentials
are missing; on a 2xx answer builds the response token object with
`expires_at = now + expires_in * 1000`, preserves the prior refresh
token when the response has no truthy one, attempts the save (outcome
ignored) and resolves the token object; resolves null on any error. -/
def refreshToken (clientId clientSecret : String) (rt : Option String)
    (env : RefreshOutcome) (now : Int) : RefreshResult :=
  if ¬ truthyStr rt then ⟨none, 0, false⟩
  else if clientId = "" ∨ clientSecret = "" then ⟨none, 0, false⟩
  else
    match env with
    | .failure => ⟨none, 1, false⟩
    | .success resp saveOk =>
      let tokenResponse : TokenSet :=
        { access_token := some resp.access_token
          refresh_token := if truthyStr resp.refresh_token then resp.refresh_token else rt
          expires_in := some resp.expires_in
          expires_at := some (now + resp.expires_in * 1000) }
      ⟨some tokenResponse, 1, saveOk⟩

end TokV2

/-! ### Concrete fixtures used by counterexamples and witnesses -/

/-- A valid (far-future) token set for `a@x.com`. -/
def tsValidA : TokenSet :=
  ⟨some "access-a", some "refresh-a", some 3600, some 2000000000⟩

/-- An expired token set with a refresh token, for `b@x.com`. -/
def tsExpiredB : TokenSet :=
  ⟨some "access-b", some "refresh-b", some 3600, some 1000⟩

/-- The registry of claim C5: `a@x.com` valid, `b@x.com` expired with a
refresh token, active account `b@x.com`; no legacy top-level fields. -/
def docC5 : TokensDoc :=
  ⟨some [("a@x.com", tsValidA), ("b@x.com", tsExpiredB)], some "b@x.com",
    none, none, none, none⟩

/-- An expired token set WITHOUT a refresh token, for `c@x.com`. -/
def tsNoRefresh : TokenSet :=
  ⟨some "access-c", none, none, some 1000⟩

/-- Registry whose active account is present but expired and
refresh-less. -/
def docC3 : TokensDoc :=
  ⟨some [("c@x.com", tsNoRefresh)], some "c@x.com", none, none, none, none⟩

/-- A legacy single-token document (top-level fields only). -/
def docLegacy : TokensDoc :=
  ⟨none, none, some "legacy-access", some "legacy-refresh", some 3600, some 1000⟩

/-- A successful refresh answer carrying a new refresh token. -/
def respFresh : RefreshResponse :=
  ⟨"new-access", some "new-refresh", 3600⟩

/-- A successful refresh answer WITHOUT a refresh token. -/
def respNoRT : RefreshResponse :=
  ⟨"new-access", none, 3600⟩

/-- Registry with one valid account, active. -/
def docValidActive : TokensDoc :=
  ⟨some [("a@x.com", tsValidA)], some "a@x.com", none, none, none, none⟩

/-- A legacy-shaped cached tokens object for `token-manager.js`, expired
(falsy `expires_at`) with a refresh token. -/
def docTm : TokensDoc :=
  ⟨none, none, some "old-access", some "old-refresh", some 3600, some 0⟩

/-! ## Helper lemmas -/

theorem GraphP1.paginateGo_pages_le {α : Type} (env : Nat → String → GraphResponse α)
    (maxCount : Nat) :
    ∀ (budget : Nat) (url : String) (items : List α) (log : List (List α))
      (pageCount : Nat),
      (GraphP1.paginateGo env maxCount budget url items log pageCount).2.2 ≤
        pageCount + budget := by
  intro budget
  induction budget with
  | zero => intro url items log pageCount; simp [GraphP1.paginateGo]
  | succ b ih =>
    intro url items log pageCount
    simp only [GraphP1.paginateGo]
    split
    · simp
    · split
      · simp
      · exact le_trans (ih _ _ _ _) (by omega)

theorem GraphP1.paginateGo_join {α : Type} (env : Nat → String → GraphResponse α)
    (maxCount : Nat) :
    ∀ (budget : Nat) (url : String) (items : List α) (log : List (List α))
      (pageCount : Nat), items = log.flatten →
      (GraphP1.paginateGo env maxCount budget url items log pageCount).1 =
        (GraphP1.paginateGo env maxCount budget url items log pageCount).2.1.flatten := by
  intro budget
  induction budget with
  | zero => intro url items log pageCount h; simpa [GraphP1.paginateGo] using h
  | succ b ih =>
    intro url items log pageCount h
    simp only [GraphP1.paginateGo]
    split
    · simp [h]
    · split
      · simp [h]
      · exact ih _ _ _ _ (by simp [h])

/-- Full specification of the `part_001` paginated call, shared by the
pagination claims. -/
theorem callGraphAPIPaginated_p1_spec :
    ∀ (α : Type) (env : Nat → String → GraphResponse α) (path : String)
      (maxCount : Nat) (out : PaginatedOutcome α),
      GraphP1.callGraphAPIPaginated env "GET" path maxCount = .ok out →
        out.pagesFetched ≤ MAX_PAGINATION_PAGES ∧
        out.value =
          (if 0 < maxCount then out.pageLog.flatten.take maxCount
           else out.pageLog.flatten) ∧
        out.odataCount = out.value.length := by
  intro α env path maxCount out h
  have hjoin := GraphP1.paginateGo_join env maxCount MAX_PAGINATION_PAGES path [] [] 0 rfl
  have hpages := GraphP1.paginateGo_pages_le env maxCount MAX_PAGINATION_PAGES path [] [] 0
  simp only [GraphP1.callGraphAPIPaginated, if_neg, ne_eq, not_true_eq_false,
    reduceIte] at h
  cases h
  refine ⟨by simpa using hpages, ?_, rfl⟩
  simp only [hjoin]

theorem TokMgr.sfEnterMany_pending (hasRT : Bool) (k : Nat) :
    ∀ (n : Nat) (s : TokMgr.SFState), s.refreshPromise = some k →
      TokMgr.sfEnterMany hasRT n s = (s, List.replicate n (some k)) := by
  intro n
  induction n with
  | zero => intro s h; simp [TokMgr.sfEnterMany]
  | succ m ih =>
    intro s h
    have he : TokMgr.sfEnter hasRT s = (s, some k) := by
      unfold TokMgr.sfEnter
      rw [h]
    simp [TokMgr.sfEnterMany, he, ih s h, List.replicate]

theorem objLookup_objDelete_self {β : Type} (k : String) (ps : List (String × β)) :
    objLookup k (objDelete k ps) = none := by
  induction ps with
  | nil => rfl
  | cons p ps ih =>
    by_cases hp : p.1 = k
    · simpa [objDelete, hp] using ih
    · simpa [objDelete, objLookup, hp] using ih

theorem objLookup_objDelete_ne {β : Type} (k k2 : String) (ps : List (String × β))
    (h : k2 ≠ k) : objLookup k2 (objDelete k ps) = objLookup k2 ps := by
  induction ps with
  | nil => rfl
  | cons p ps ih =>
    by_cases hp : p.1 = k
    · have hp2 : p.1 ≠ k2 := by rw [hp]; exact fun he => h he.symm
      calc objLookup k2 (objDelete k (p :: ps)) = objLookup k2 (objDelete k ps) := by
            simp [objDelete, List.filter_cons, hp]
        _ = objLookup k2 ps := ih
        _ = objLookup k2 (p :: ps) := by simp [objLookup, hp2]
    · by_cases hp2 : p.1 = k2
      · simp [objDelete, List.filter_cons, objLookup, hp, hp2, h]
      · simp only [objDelete, List.filter_cons, objLookup, hp, hp2, decide_False,
          decide_True, Bool.not_false, if_true, if_false, ite_false]
        simpa [objDelete, objLookup, hp, hp2] using ih

theorem hexDigit_mem (n : Nat) : hexDigit n ∈ "0123456789ABCDEF".data := by
  unfold hexDigit
  rcases lt_or_ge n 16 with h | h
  · interval_cases n <;> decide
  · rw [List.getD_eq_default]
    · decide
    · have hlen : ("0123456789ABCDEF".data).length = 16 := by decide
      omega

theorem hexVal_hexDigit (n : Nat) (h : n < 16) : hexVal (hexDigit n) = some n := by
  interval_cases n <;> decide

theorem hex_chars_ok : ∀ c ∈ "0123456789ABCDEF".data, c ≠ '&' ∧ c ≠ '$' ∧ c ≠ '=' := by
  decide

theorem percentEncodeChar_mem (c c2 : Char) (h : c2 ∈ percentEncodeChar c) :
    c2 = '%' ∨ c2 ∈ "0123456789ABCDEF".data := by
  simp only [percentEncodeChar, List.mem_cons, List.not_mem_nil, or_false] at h
  rcases h with h | h | h
  · exact Or.inl h
  · exact Or.inr (h ▸ hexDigit_mem _)
  · exact Or.inr (h ▸ hexDigit_mem _)

theorem encodeURIComponentList_ne_amp (l : List Char) :
    ∀ c ∈ encodeURIComponentList l, c ≠ '&' := by
  induction l with
  | nil => intro c hc; cases hc
  | cons a l ih =>
    intro c hc
    simp only [encodeURIComponentList, List.mem_append] at hc
    rcases hc with hc | hc
    · by_cases ha : isUriUnreserved a
      · rw [if_pos ha] at hc
        simp only [List.mem_singleton] at hc
        subst hc
        intro he
        rw [he] at ha
        exact absurd ha (by decide)
      · rw [if_neg ha] at hc
        rcases percentEncodeChar_mem a c hc with rfl | hm
        · decide
        · exact (hex_chars_ok c hm).1
    · exact ih c hc

theorem formEncodeList_ok (l : List Char) :
    ∀ c ∈ formEncodeList l, c ≠ '&' ∧ c ≠ '$' ∧ c ≠ '=' := by
  induction l with
  | nil => intro c hc; cases hc
  | cons a l ih =>
    intro c hc
    simp only [formEncodeList, List.mem_append] at hc
    rcases hc with hc | hc
    · unfold formEncodeChar at hc
      by_cases hsp : a = ' '
      · rw [if_pos hsp] at hc
        simp only [List.mem_singleton] at hc
        subst hc
        decide
      · rw [if_neg hsp] at hc
        by_cases hf : isFormUnreserved a
        · rw [if_pos hf] at hc
          simp only [List.mem_singleton] at hc
          subst hc
          refine ⟨?_, ?_, ?_⟩ <;> intro he <;> rw [he] at hf <;> exact absurd hf (by decide)
        · rw [if_neg hf] at hc
          rcases percentEncodeChar_mem a c hc with rfl | hm
          · decide
          · exact hex_chars_ok c hm
    · exact ih c hc

theorem decodeURIComponentList_cons_ne (c : Char) (cs : List Char) (h : c ≠ '%') :
    decodeURIComponentList (c :: cs) = c :: decodeURIComponentList cs := by
  rw [decodeURIComponentList.eq_def]
  split
  · simp_all
  · simp_all
  · next _ c2 cs2 _ heq =>
    obtain ⟨rfl, rfl⟩ : c = c2 ∧ cs = cs2 := by
      injection heq with h1 h2
      exact ⟨h1, h2⟩
    rfl

theorem decode_encode (l : List Char) (h : asciiL l) :
    decodeURIComponentList (encodeURIComponentList l) = l := by
  induction l with
  | nil => rfl
  | cons c cs ih =>
    have hc : c.toNat < 128 := h c (List.mem_cons_self c cs)
    have ih2 := ih (fun x hx => h x (List.mem_cons_of_mem c hx))
    by_cases hu : isUriUnreserved c
    · have hpc : c ≠ '%' := by
        intro he
        rw [he] at hu
        exact absurd hu (by decide)
      simp only [encodeURIComponentList, if_pos hu, List.singleton_append]
      rw [decodeURIComponentList_cons_ne c _ hpc, ih2]
    · have h1 : hexVal (hexDigit (c.toNat / 16)) = some (c.toNat / 16) :=
        hexVal_hexDigit _ (by omega)
      have h2 : hexVal (hexDigit (c.toNat % 16)) = some (c.toNat % 16) :=
        hexVal_hexDigit _ (by omega)
      simp only [encodeURIComponentList, if_neg hu, percentEncodeChar, List.cons_append,
        List.nil_append, decodeURIComponentList, h1, h2]
      rw [Nat.div_add_mod, Char.ofNat_toNat, ih2]

theorem splitChar_sepFree (sep : Char) (a : List Char) (h : sep ∉ a) :
    splitChar sep a = [a] := by
  induction a with
  | nil => rfl
  | cons c cs ih =>
    have hc : ¬ c = sep := fun he => h (he ▸ List.mem_cons_self c cs)
    have ih2 := ih (fun hm => h (List.mem_cons_of_mem c hm))
    simp [splitChar, hc, ih2]

theorem splitChar_append_sep (sep : Char) (a b : List Char) (h : sep ∉ a) :
    splitChar sep (a ++ sep :: b) = a :: splitChar sep b := by
  induction a with
  | nil => simp [splitChar]
  | cons c cs ih =>
    have hc : ¬ c = sep := fun he => h (he ▸ List.mem_cons_self c cs)
    have ih2 := ih (fun hm => h (List.mem_cons_of_mem c hm))
    simp [splitChar, hc, ih2]

theorem joinSep_ne_nil (sep : Char) (gs : List (List Char)) (h1 : gs ≠ [])
    (h2 : ∀ g ∈ gs, g ≠ []) : joinSep sep gs ≠ [] := by
  rcases gs with _ | ⟨g, gs⟩
  · exact absurd rfl h1
  · rcases gs with _ | ⟨g2, gs⟩
    · exact h2 g (by simp)
    · simp [joinSep]

theorem joinSep_concat (sep : Char) (gs : List (List Char)) (x : List Char) (h : gs ≠ []) :
    joinSep sep (gs ++ [x]) = joinSep sep gs ++ sep :: x := by
  induction gs with
  | nil => exact absurd rfl h
  | cons g gs ih =>
    rcases gs with _ | ⟨g2, gs⟩
    · simp [joinSep]
    · have h2 := ih (by simp)
      simp only [List.cons_append] at h2
      calc joinSep sep ((g :: g2 :: gs) ++ [x])
          = g ++ sep :: joinSep sep (g2 :: (gs ++ [x])) := by
            simp only [List.cons_append]
            rfl
        _ = g ++ sep :: (joinSep sep (g2 :: gs) ++ sep :: x) := by rw [h2]
        _ = (g ++ sep :: joinSep sep (g2 :: gs)) ++ sep :: x := by
            simp [List.append_assoc]
        _ = joinSep sep (g :: g2 :: gs) ++ sep :: x := rfl

theorem splitChar_joinSep (sep : Char) (gs : List (List Char)) (h1 : gs ≠ [])
    (h2 : ∀ g ∈ gs, sep ∉ g) : splitChar sep (joinSep sep gs) = gs := by
  induction gs with
  | nil => exact absurd rfl h1
  | cons g gs ih =>
    rcases gs with _ | ⟨g2, gs⟩
    · exact splitChar_sepFree sep g (h2 g (by simp))
    · have hstep : joinSep sep (g :: g2 :: gs) = g ++ sep :: joinSep sep (g2 :: gs) := rfl
      rw [hstep, splitChar_append_sep sep g _ (h2 g (by simp)),
        ih (by simp) (fun x hx => h2 x (List.mem_cons_of_mem g hx))]

theorem leadsWith_refl_append (p r : List Char) : leadsWith p (p ++ r) = true := by
  induction p with
  | nil => rfl
  | cons c cs ih => simp [leadsWith, ih]

theorem leadsWith_filterKey_false (p : String × String) :
    leadsWith "$filter=".data
      (formEncodeList p.1.data ++ '=' :: formEncodeList p.2.data) = false := by
  rcases hk : formEncodeList p.1.data with _ | ⟨c, cs⟩
  · simp [leadsWith]
  · have hmem : c ∈ formEncodeList p.1.data := by rw [hk]; exact List.mem_cons_self c cs
    have hne : c ≠ '$' := (formEncodeList_ok p.1.data c hmem).2.1
    have : ('$' == c) = false := by
      rw [beq_eq_false_iff_ne]
      exact fun he => hne he.symm
    simp [leadsWith, this]

/-- The filter component is found intact in the assembled query body:
splitting on `&` yields exactly the serialized parameters plus the
appended `$filter` component. -/
theorem filter_component_found (ps : List (String × String)) (ef : List Char)
    (hef : ∀ c ∈ ef, c ≠ '&') :
    (splitChar '&'
        (if serializeParamsL ps ≠ [] then
          serializeParamsL ps ++ '&' :: ("$filter=".data ++ ef)
         else "$filter=".data ++ ef)).find?
        (fun c => leadsWith "$filter=".data c) = some ("$filter=".data ++ ef) ∧
    (splitChar '&'
        (if serializeParamsL ps ≠ [] then
          serializeParamsL ps ++ '&' :: ("$filter=".data ++ ef)
         else "$filter=".data ++ ef)).length = ps.length + 1 := by
  have hfc_amp : '&' ∉ "$filter=".data ++ ef := by
    intro hm
    rcases List.mem_append.mp hm with hm | hm
    · exact absurd hm (by decide)
    · exact hef '&' hm rfl
  have hfc_lead : leadsWith "$filter=".data ("$filter=".data ++ ef) = true :=
    leadsWith_refl_append _ _
  have hcomp_amp : ∀ p : String × String,
      '&' ∉ formEncodeList p.1.data ++ '=' :: formEncodeList p.2.data := by
    intro p hm
    rcases List.mem_append.mp hm with hm | hm
    · exact (formEncodeList_ok p.1.data '&' hm).1 rfl
    · rcases List.mem_cons.mp hm with hm | hm
      · exact absurd hm (by decide)
      · exact (formEncodeList_ok p.2.data '&' hm).1 rfl
  rcases hps : ps with _ | ⟨p0, ps0⟩
  · have hser : serializeParamsL [] = [] := rfl
    rw [hser]
    simp only [ne_eq, not_true_eq_false, if_false, ite_false]
    rw [splitChar_sepFree '&' _ hfc_amp]
    refine ⟨?_, rfl⟩
    simpa using leadsWith_refl_append "$filter=".data ef
  · have hmapne : (p0 :: ps0).map
        (fun p => formEncodeList p.1.data ++ '=' :: formEncodeList p.2.data) ≠ [] := by
      simp
    have hcompne : ∀ g ∈ (p0 :: ps0).map
        (fun p => formEncodeList p.1.data ++ '=' :: formEncodeList p.2.data), g ≠ [] := by
      intro g hg
      rcases List.mem_map.mp hg with ⟨p, _, rfl⟩
      simp
    have hser_ne : serializeParamsL (p0 :: ps0) ≠ [] :=
      joinSep_ne_nil '&' _ hmapne hcompne
    rw [if_pos hser_ne]
    have hjoin : serializeParamsL (p0 :: ps0) ++ '&' :: ("$filter=".data ++ ef) =
        joinSep '&' ((p0 :: ps0).map
          (fun p => formEncodeList p.1.data ++ '=' :: formEncodeList p.2.data)
          ++ ["$filter=".data ++ ef]) := by
      rw [joinSep_concat '&' _ _ hmapne]
      rfl
    rw [hjoin, splitChar_joinSep '&' _ (by simp) ?hfree]
    case hfree =>
      intro g hg
      rcases List.mem_append.mp hg with hg | hg
      · rcases List.mem_map.mp hg with ⟨p, _, rfl⟩
        exact hcomp_amp p
      · rcases List.mem_singleton.mp hg with rfl
        exact hfc_amp
    constructor
    · rw [List.find?_append]
      have hnone : ((p0 :: ps0).map
          (fun p => formEncodeList p.1.data ++ '=' :: formEncodeList p.2.data)).find?
            (fun c => leadsWith "$filter=".data c) = none := by
        rw [List.find?_eq_none]
        intro x hx
        rcases List.mem_map.mp hx with ⟨p, _, rfl⟩
        simp [leadsWith_filterKey_false p]
      rw [hnone]
      simpa using leadsWith_refl_append "$filter=".data ef
    · simp

/-- `queryFilterValueL` on a `?`-prefixed query string, unfolded. -/
theorem queryFilterValueL_q (r : List Char) :
    queryFilterValueL ('?' :: r) =
      match (splitChar '&' r).find? (fun c => leadsWith "$filter=".data c) with
      | some comp => some (decodeURIComponentList (comp.drop 8))
      | none => none := rfl

/-- Dropping the `$filter=` key of the assembled component leaves the
encoded value. -/
theorem filterComp_drop (ef : List Char) : ("$filter=".data ++ ef).drop 8 = ef := by
  have h8 : ("$filter=".data).length = 8 := rfl
  rw [← h8]
  exact List.drop_left _ _

/-- Round trip of the canonical `?`-prefixed body shape produced by both
query-string builders when the filter comes from `queryParams`. -/
theorem queryFilterValueL_canonical (ps : List (String × String)) (ef : List Char)
    (hef : ∀ c ∈ ef, c ≠ '&') :
    queryFilterValueL ('?' :: (if serializeParamsL ps ≠ [] then
        serializeParamsL ps ++ '&' :: ("$filter=".data ++ ef)
      else "$filter=".data ++ ef)) = some (decodeURIComponentList ef) := by
  rw [queryFilterValueL_q, (filter_component_found ps ef hef).1]
  show some (decodeURIComponentList (("$filter=".data ++ ef).drop 8)) =
    some (decodeURIComponentList ef)
  rw [filterComp_drop]

theorem truthyStr_true_iff (o : Option String) :
    truthyStr o = true ↔ ∃ s, o = some s ∧ s ≠ "" := by
  cases o <;> simp [truthyStr]

/-- A refresh that hands back a token went through exactly one outbound
request. -/
theorem TokStore.refresh_some_requests (s : Option TokensDoc) (env : RefreshOutcome)
    (now : Int) (tok : String) :
    (TokStore.refreshAccessToken s env now).token = some tok →
    (TokStore.refreshAccessToken s env now).requests = 1 := by
  rcases s with _ | d
  · simp [TokStore.refreshAccessToken]
  · by_cases hrt : truthyStr d.refresh_token = true
    · cases env with
      | failure => simp [TokStore.refreshAccessToken, hrt]
      | success resp saveOk =>
        cases saveOk <;> simp [TokStore.refreshAccessToken, hrt]
    · simp [TokStore.refreshAccessToken, hrt]

theorem TokStore.isExpiredInline_false_lt (now e : Int)
    (h : TokStore.isExpiredInline now (some e) = false) :
    now < e - REFRESH_BUFFER_MS := by
  simp only [TokStore.isExpiredInline, decide_eq_false_iff_not, not_le] at h
  exact h

theorem TokStore.isTokenExpired_false_lt (now : Int) (d : TokensDoc)
    (h : TokStore.isTokenExpired now d = false) :
    ∀ e, d.expires_at = some e → now < e - REFRESH_BUFFER_MS := by
  intro e he
  rcases hd : d.expires_at with _ | v
  · rw [hd] at he
    exact Option.noConfusion he
  · rw [hd] at he
    obtain rfl : v = e := Option.some.inj he
    rw [TokStore.isTokenExpired, hd] at h
    by_cases hv : v = 0 <;> simp [hv] at h
    omega

/-! ## The claims -/

/-- C1 (amended).  For the `callGraphAPIPaginated` of
`src/unnamed/part_001` — the variant that implements the
`config.MAX_PAGINATION_PAGES` safeguard — every call (any environment,
so in particular any looping continuation cursor, and any `maxCount`,
including `maxCount = 0` and `maxCount` larger than the ceiling's pages
can supply) terminates with at most `MAX_PAGINATION_PAGES` pages
fetched, returning the items accumulated from the fetched pages
(truncated only when `maxCount > 0`), with the count field equal to the
returned length.  The ceiling check runs before the `maxCount` check in
each iteration, which is why the page bound is unconditional.
(The near-duplicate in `src/utils/graph-api.js` has no ceiling at all;
see `claim_C1_counterexample`.) -/
theorem claim_C1_pagination_ceiling :
    ∀ (α : Type) (env : Nat → String → GraphResponse α) (path : String)
      (maxCount : Nat) (out : PaginatedOutcome α),
      GraphP1.callGraphAPIPaginated env "GET" path maxCount = .ok out →
        out.pagesFetched ≤ MAX_PAGINATION_PAGES ∧
        out.value =
          (if 0 < maxCount then out.pageLog.flatten.take maxCount
           else out.pageLog.flatten) ∧
        out.odataCount = out.value.length :=
  callGraphAPIPaginated_p1_spec

/-- C1 witness: the amended theorem applied to the looping-cursor
environment with `maxCount = 0`: the `part_001` variant stops after
exactly the 100-page ceiling with the 100 accumulated items. -/
theorem claim_C1_pagination_ceiling_witness :
    (⟨List.replicate 100 0, 100, 100, List.replicate 100 [0]⟩ :
        PaginatedOutcome Nat).pagesFetched ≤ MAX_PAGINATION_PAGES ∧
    (⟨List.replicate 100 0, 100, 100, List.replicate 100 [0]⟩ :
        PaginatedOutcome Nat).value =
      (if 0 < 0 then
        (List.replicate 100 [(0 : Nat)]).flatten.take 0
       else (List.replicate 100 [(0 : Nat)]).flatten) ∧
    (⟨List.replicate 100 0, 100, 100, List.replicate 100 [0]⟩ :
        PaginatedOutcome Nat).odataCount = 100 :=
  claim_C1_pagination_ceiling Nat loopingEnv "https://g/loop" 0
    ⟨List.replicate 100 0, 100, 100, List.replicate 100 [0]⟩ (by rfl)

/-- C1 counterexample.  The claim is false for the cited
`callGraphAPIPaginated` of `src/utils/graph-api.js`: that variant never
consults `config.MAX_PAGINATION_PAGES`.  Against a remote whose every
page carries one item and a continuation cursor looping back to the same
URL, with `maxCount = 0`, after 150 loop iterations the call has fetched
150 pages — more than the claimed hard ceiling of 100 — and has still
not returned (`none` = still looping). -/
theorem claim_C1_counterexample :
    (GraphJs.paginateGo loopingEnv 0 150 "https://g/loop" [] 0).1 = none ∧
    (GraphJs.paginateGo loopingEnv 0 150 "https://g/loop" [] 0).2 = 150 ∧
    MAX_PAGINATION_PAGES < 150 :=
  ⟨by decide, by decide, by decide⟩

/-- C2.  With `maxCount = 25` against a remote serving pages of 10 items
each (every page carrying a cursor), both `callGraphAPIPaginated`
variants issue exactly 3 page fetches — stopping before following the
third page's cursor — and return exactly the first 25 items in page
order with `@odata.count = 25`; and in general, for the instrumented
`part_001` variant, whenever `maxCount > 0` the returned list is the
concatenation of the fetched pages truncated to `maxCount`, and the
count field equals the returned list's length. -/
theorem claim_C2_maxCount_truncation :
    ((GraphP1.callGraphAPIPaginated pagesOf10Env "GET" "me/messages" 25).toOption.map
        (fun o => (o.pagesFetched, o.value, o.odataCount)) =
      some (3, List.range 25, 25)) ∧
    ((GraphJs.callGraphAPIPaginated pagesOf10Env "GET" "me/messages" 25 10).toOption.map
        (fun o => o.map (fun x => (x.pagesFetched, x.value, x.odataCount))) =
      some (some (3, List.range 25, 25))) ∧
    (∀ (α : Type) (env : Nat → String → GraphResponse α) (path : String)
       (maxCount : Nat) (out : PaginatedOutcome α), 0 < maxCount →
       GraphP1.callGraphAPIPaginated env "GET" path maxCount = .ok out →
         out.value = out.pageLog.flatten.take maxCount ∧
         out.odataCount = out.value.length) := by
  refine ⟨by decide, by decide, ?_⟩
  intro α env path maxCount out hpos h
  obtain ⟨-, hv, hc⟩ := callGraphAPIPaginated_p1_spec α env path maxCount out h
  rw [if_pos hpos] at hv
  exact ⟨hv, hc⟩

/-- C2 witness: the general clause applied to the 10-items-per-page
environment at `maxCount = 25`. -/
theorem claim_C2_maxCount_truncation_witness :
    (⟨List.range 25, 25, 3,
        (List.range 3).map (fun p => (List.range 10).map (fun j => p * 10 + j))⟩ :
      PaginatedOutcome Nat).value =
      ((List.range 3).map (fun p =>
        (List.range 10).map (fun j => p * 10 + j))).flatten.take 25 ∧
    (⟨List.range 25, 25, 3,
        (List.range 3).map (fun p => (List.range 10).map (fun j => p * 10 + j))⟩ :
      PaginatedOutcome Nat).odataCount = 25 :=
  claim_C2_maxCount_truncation.2.2 Nat pagesOf10Env "me/messages" 25
    ⟨List.range 25, 25, 3,
      (List.range 3).map (fun p => (List.range 10).map (fun j => p * 10 + j))⟩
    (by decide) (by rfl)

/-- C4.  Single-flight refresh in `src/auth/token-manager.js`: starting
from an idle guard, the first caller issues exactly one outbound
token-endpoint request and installs the pending operation; every one of
the `n` callers that arrive while that refresh is in flight — in any
interleaving, since each entry to `refreshAccessToken` is atomic (no
suspension point between the `refreshPromise` check and its
assignment) — awaits that same pending operation and issues no request;
the pending slot still holds the operation after all arrivals and is
cleared only when the operation settles. -/
theorem claim_C4_single_flight :
    ∀ (s0 : TokMgr.SFState) (n : Nat) (hasRT : Bool),
      s0.refreshPromise = none →
      (TokMgr.sfEnter true s0).2 = some s0.issued ∧
      (TokMgr.sfEnterMany hasRT n (TokMgr.sfEnter true s0).1).1.issued = s0.issued + 1 ∧
      (TokMgr.sfEnterMany hasRT n (TokMgr.sfEnter true s0).1).2 =
        List.replicate n (some s0.issued) ∧
      (TokMgr.sfEnterMany hasRT n (TokMgr.sfEnter true s0).1).1.refreshPromise =
        some s0.issued ∧
      (TokMgr.sfSettle
        (TokMgr.sfEnterMany hasRT n (TokMgr.sfEnter true s0).1).1).refreshPromise = none := by
  intro s0 n hasRT h0
  have he : TokMgr.sfEnter true s0 = (⟨some s0.issued, s0.issued + 1⟩, some s0.issued) := by
    unfold TokMgr.sfEnter
    rw [h0]
    simp
  have hm := TokMgr.sfEnterMany_pending hasRT s0.issued n ⟨some s0.issued, s0.issued + 1⟩ rfl
  rw [he]
  exact ⟨rfl, by rw [hm], by rw [hm], by rw [hm], by rw [hm]; rfl⟩

/-- C4 witness: three concurrent callers behind one in-flight refresh. -/
theorem claim_C4_single_flight_witness :
    (TokMgr.sfEnter true ⟨none, 0⟩).2 = some 0 ∧
    (TokMgr.sfEnterMany true 3 (TokMgr.sfEnter true ⟨none, 0⟩).1).1.issued = 0 + 1 ∧
    (TokMgr.sfEnterMany true 3 (TokMgr.sfEnter true ⟨none, 0⟩).1).2 =
      List.replicate 3 (some 0) ∧
    (TokMgr.sfEnterMany true 3 (TokMgr.sfEnter true ⟨none, 0⟩).1).1.refreshPromise = some 0 ∧
    (TokMgr.sfSettle
      (TokMgr.sfEnterMany true 3 (TokMgr.sfEnter true ⟨none, 0⟩).1).1).refreshPromise = none :=
  claim_C4_single_flight ⟨none, 0⟩ 3 true rfl

/-- C5 (code bug).  Registry `{a@x.com: valid, b@x.com: expired with a
refresh token}`, active `b@x.com`.  The claim (and the spec scenario)
says `getValidAccessToken()` performs exactly one refresh with
`b@x.com`'s refresh token and returns its new access token.  The code
instead returns `null` after issuing ZERO token-endpoint requests, even
with an environment whose refresh would succeed: `getValidAccessToken`
checks `activeTokens.refresh_token` (truthy here) but then calls
`refreshAccessToken`, whose guard (src/unnamed/part_003 line 235) reads
the TOP-LEVEL `this.tokens.refresh_token` — absent in the multi-account
document — and throws before any request.  The registry (in particular
`a@x.com`'s token set) is left unchanged, which is the only part of the
claim that survives. -/
theorem claim_C5_refresh_wrong_field :
    TokStore.getValidAccessToken (some docC5) (RefreshOutcome.success respFresh true)
        1000000 = ⟨none, some docC5, 0⟩ ∧
    objLookup "a@x.com" (docC5.accounts.getD []) = some tsValidA ∧
    objLookup "b@x.com" (docC5.accounts.getD []) = some tsExpiredB ∧
    TokStore.isExpiredInline 1000000 tsExpiredB.expires_at = true ∧
    truthyStr tsExpiredB.refresh_token = true ∧
    truthyStr docC5.refresh_token = false := by
  refine ⟨by decide, by decide, by decide, by decide, by decide, by decide⟩

/-- C6 (amended).  After a successful refresh the stored token object
has: `accessToken` replaced by the response's access token; `expiresAt`
recomputed at the moment of the refresh as `now + expires_in * 1000` —
which strictly exceeds the prior `expiresAt` exactly when that quantity
exceeds it (NOT unconditionally, see `claim_C6_counterexample`); and the
prior `refreshToken` preserved unchanged whenever the response omits a
`refresh_token`. -/
theorem claim_C6_refresh_update :
    ∀ (d : TokensDoc) (resp : RefreshResponse) (now : Int),
      (applyRefreshToDoc d resp now).access_token = some resp.access_token ∧
      (applyRefreshToDoc d resp now).expires_at = some (now + resp.expires_in * 1000) ∧
      (resp.refresh_token = none →
        (applyRefreshToDoc d resp now).refresh_token = d.refresh_token) ∧
      (∀ e, d.expires_at = some e → e < now + resp.expires_in * 1000 →
        ∃ e2, (applyRefreshToDoc d resp now).expires_at = some e2 ∧ e < e2) := by
  intro d resp now
  refine ⟨rfl, rfl, ?_, ?_⟩
  · intro h
    simp [applyRefreshToDoc, h, truthyStr]
  · intro e _ hlt
    exact ⟨now + resp.expires_in * 1000, rfl, hlt⟩

/-- C6 witness: a refresh of the legacy fixture with a response lacking
`refresh_token`. -/
theorem claim_C6_refresh_update_witness :
    (applyRefreshToDoc docLegacy respNoRT 2000).access_token = some respNoRT.access_token ∧
    (applyRefreshToDoc docLegacy respNoRT 2000).expires_at =
      some (2000 + respNoRT.expires_in * 1000) ∧
    (applyRefreshToDoc docLegacy respNoRT 2000).refresh_token = docLegacy.refresh_token ∧
    ∃ e2, (applyRefreshToDoc docLegacy respNoRT 2000).expires_at = some e2 ∧ (1000 : Int) < e2 := by
  obtain ⟨h1, h2, h3, h4⟩ := claim_C6_refresh_update docLegacy respNoRT 2000
  exact ⟨h1, h2, h3 rfl, h4 1000 rfl (by decide)⟩

/-- C6 counterexample.  "expiresAt strictly increases after every
successful refresh" is false: `expiresAt` is simply recomputed as
`now + expires_in * 1000`.  A token whose stored expiry is 1000000,
refreshed (legitimately: `now = 700000` is within the 5-minute buffer of
expiry, third conjunct) against a response with `expires_in = 100`
seconds, ends up with `expiresAt = 800000` — strictly SMALLER than
before. -/
theorem claim_C6_counterexample :
    (applyRefreshToDoc ⟨none, none, some "old", some "r", some 3600, some 1000000⟩
        ⟨"new", none, 100⟩ 700000).expires_at = some 800000 ∧
    (800000 : Int) < 1000000 ∧
    ((1000000 : Int) - REFRESH_BUFFER_MS ≤ 700000) := by
  refine ⟨by decide, by decide, by decide⟩

/-- C7 counterexample.  In the cited code a refresh that succeeds at the
token endpoint but whose token-file write fails does NOT yield the new
token to the caller: `refreshAccessToken` of `src/auth/token-manager.js`
resolves `null` when `saveTokenCache` fails (lines 150-153) — the same
call with the save succeeding hands back the new access token, and the
in-memory object holds the new token either way.  (The multi-account
variant of `src/unnamed/part_003` even rejects, lines 281-288.) -/
theorem claim_C7_counterexample :
    (TokMgr.refreshAccessToken (some docTm) (RefreshOutcome.success respNoRT false)
        500).token = none ∧
    (TokMgr.refreshAccessToken (some docTm) (RefreshOutcome.success respNoRT true)
        500).token = some "new-access" ∧
    (TokMgr.refreshAccessToken (some docTm) (RefreshOutcome.success respNoRT false)
        500).cached = some (applyRefreshToDoc docTm respNoRT 500) ∧
    (TokStore.refreshAccessToken (some docTm) (RefreshOutcome.success respNoRT false)
        500).token = none := by
  refine ⟨by decide, by decide, by decide, by decide⟩

/-- C7 (amended).  The claimed behaviour — a failed persistence after a
successful token-endpoint refresh is non-fatal, the caller still
receiving the new in-memory token, the failure being only logged — holds
for the simple `TokenStorage.refreshToken` of `src/unnamed/part_003`
(lines 586-663, whose `saveTokens` swallows write errors and returns a
boolean that `refreshToken` ignores), but NOT for the two cited
variants, which report the refresh itself as failed
(see `claim_C7_counterexample`). -/
theorem claim_C7_save_failure_nonfatal :
    ∀ (cid csec rt : String) (resp : RefreshResponse) (now : Int),
      rt ≠ "" → cid ≠ "" → csec ≠ "" →
      (TokV2.refreshToken cid csec (some rt) (RefreshOutcome.success resp false) now).result =
        some ⟨some resp.access_token,
          (if truthyStr resp.refresh_token then resp.refresh_token else some rt),
          some resp.expires_in, some (now + resp.expires_in * 1000)⟩ ∧
      (TokV2.refreshToken cid csec (some rt) (RefreshOutcome.success resp false) now).savedOk
        = false ∧
      (TokV2.refreshToken cid csec (some rt) (RefreshOutcome.success resp false) now).requests
        = 1 := by
  intro cid csec rt resp now hrt hcid hcsec
  simp [TokV2.refreshToken, truthyStr, hrt, hcid, hcsec]

/-- C7 witness: a concrete failed-save refresh in the simple class still
returns the refreshed token object. -/
theorem claim_C7_save_failure_nonfatal_witness :
    (TokV2.refreshToken "cid" "sec" (some "old-refresh")
        (RefreshOutcome.success respNoRT false) 500).result =
      some ⟨some respNoRT.access_token,
        (if truthyStr respNoRT.refresh_token then respNoRT.refresh_token
         else some "old-refresh"),
        some respNoRT.expires_in, some (500 + respNoRT.expires_in * 1000)⟩ ∧
    (TokV2.refreshToken "cid" "sec" (some "old-refresh")
        (RefreshOutcome.success respNoRT false) 500).savedOk = false ∧
    (TokV2.refreshToken "cid" "sec" (some "old-refresh")
        (RefreshOutcome.success respNoRT false) 500).requests = 1 :=
  claim_C7_save_failure_nonfatal "cid" "sec" "old-refresh" respNoRT 500
    (by decide) (by decide) (by decide)

/-- C9.  `getAllAccounts` (src/unnamed/part_003 lines 116-131): a legacy
single-token document — no `accounts` key, a (truthy) `access_token`
field — yields exactly the one-element sequence `["default"]`; a
document with the multi-account `accounts` object yields its keys. -/
theorem claim_C9_getAllAccounts :
    (∀ d : TokensDoc, d.accounts = none → truthyStr d.access_token = true →
      TokStore.getAllAccounts (some d) = ["default"]) ∧
    (∀ (d : TokensDoc) (m : List (String × TokenSet)), d.accounts = some m →
      TokStore.getAllAccounts (some d) = m.map Prod.fst) := by
  constructor
  · intro d h1 h2
    simp [TokStore.getAllAccounts, h1, h2]
  · intro d m h1
    simp [TokStore.getAllAccounts, h1]

/-- C8 (amended).  When the caller passes the RAW filter expression in
`queryParams.$filter` — any non-empty ASCII value, in particular one
containing `'` and `&` — both query-string builders append it to the
query string separately from the generic `URLSearchParams` serializer
with exactly one `encodeURIComponent` pass, the embedded `&` does not
truncate or split it (the split on `&` yields exactly one component per
remaining parameter plus the one `$filter` component), and the `$filter`
parameter decodes back to the exact intended expression.  The claim's
"no double-encoding when the caller pre-encoded it" clause, however, is
false for the only pre-encoding route that exists (a `$filter` embedded
in the path's own query string, `part_001` only): see
`claim_C8_counterexample`. -/
theorem claim_C8_filter_encoding :
    ∀ (qp : List (String × String)) (f path : String),
      objLookup "$filter" qp = some f → f ≠ "" → asciiL f.data → '?' ∉ path.data →
      queryFilterValueL (GraphJs.buildQueryString qp).1 = some f.data ∧
      (splitChar '&' ((GraphJs.buildQueryString qp).1.drop 1)).length =
        (objDelete "$filter" qp).length + 1 ∧
      queryFilterValueL (GraphP1.buildQueryString path qp).2 = some f.data := by
  intro qp f path hf hne hascii hpath
  have hqp : ¬ qp = [] := by
    intro he
    rw [he] at hf
    exact Option.noConfusion hf
  have htrf : truthyStr (some f) = true := by
    simp [truthyStr, hne]
  have hef : ∀ c ∈ encodeURIComponentList f.data, c ≠ '&' :=
    encodeURIComponentList_ne_amp f.data
  have hgjs1 : (GraphJs.buildQueryString qp).1 =
      '?' :: (if serializeParamsL (objDelete "$filter" qp) ≠ [] then
        serializeParamsL (objDelete "$filter" qp) ++
          '&' :: ("$filter=".data ++ encodeURIComponentList f.data)
      else "$filter=".data ++ encodeURIComponentList f.data) := by
    by_cases hs : serializeParamsL (objDelete "$filter" qp) = [] <;>
      simp [GraphJs.buildQueryString, hqp, htrf, hf, hs]
  have hsplit : splitChar '?' path.data = [path.data] := splitChar_sepFree _ _ hpath
  have hp1 : (GraphP1.buildQueryString path qp).2 =
      '?' :: (if serializeParamsL (objDelete "$filter" qp) ≠ [] then
        serializeParamsL (objDelete "$filter" qp) ++
          '&' :: ("$filter=".data ++ encodeURIComponentList f.data)
      else "$filter=".data ++ encodeURIComponentList f.data) := by
    by_cases hs : serializeParamsL (objDelete "$filter" qp) = [] <;>
      simp [GraphP1.buildQueryString, hsplit, hf, hs]
  refine ⟨?_, ?_, ?_⟩
  · rw [hgjs1, queryFilterValueL_canonical _ _ hef, decode_encode f.data hascii]
  · rw [hgjs1]
    simpa using (filter_component_found (objDelete "$filter" qp)
      (encodeURIComponentList f.data) hef).2
  · rw [hp1, queryFilterValueL_canonical _ _ hef, decode_encode f.data hascii]

/-- C8 witness: the filter `name eq 'A&B'` (containing both `'` and `&`)
round-trips through both builders alongside another parameter. -/
theorem claim_C8_filter_encoding_witness :
    queryFilterValueL
        (GraphJs.buildQueryString [("$top", "10"), ("$filter", "name eq 'A&B'")]).1 =
      some "name eq 'A&B'".data ∧
    (splitChar '&'
        ((GraphJs.buildQueryString [("$top", "10"), ("$filter", "name eq 'A&B'")]).1.drop 1)).length =
      (objDelete "$filter" [("$top", "10"), ("$filter", "name eq 'A&B'")]).length + 1 ∧
    queryFilterValueL
        (GraphP1.buildQueryString "me/messages"
          [("$top", "10"), ("$filter", "name eq 'A&B'")]).2 =
      some "name eq 'A&B'".data :=
  claim_C8_filter_encoding [("$top", "10"), ("$filter", "name eq 'A&B'")]
    "name eq 'A&B'" "me/messages" (by decide) (by decide) (by decide) (by decide)

/-- C8 counterexample.  The pre-encoded route loses the encoding: give
`part_001`'s builder the path
`messages?$filter=subject%20eq%20%27a%26b%27` (the caller pre-encoded
the filter `subject eq 'a&b'`) and no `queryParams`.  The builder takes
the filter from `URLSearchParams.entries()` — which has already DECODED
it — and, believing it still pre-encoded, appends it verbatim: the query
string comes out as `?$filter=subject eq 'a&b'` with a raw `&`, so the
server-side parse truncates the filter at the `&` and sees
`subject eq 'a`, not the intended expression. -/
theorem claim_C8_counterexample :
    (GraphP1.buildQueryString "messages?$filter=subject%20eq%20%27a%26b%27" []).2 =
      "?$filter=subject eq 'a&b'".data ∧
    queryFilterValueL
        (GraphP1.buildQueryString "messages?$filter=subject%20eq%20%27a%26b%27" []).2 =
      some "subject eq 'a".data ∧
    "subject eq 'a".data ≠ "subject eq 'a&b'".data := by
  refine ⟨by decide, by decide, by decide⟩

/-- C10 (amended).  `callGraphAPI` of `src/utils/graph-api.js` (outside
test mode, relative path) mutates its caller's `queryParams` object:
whenever the object holds a `$filter` key with a truthy (non-empty)
value, the key is deleted from the caller's object (`delete
queryParams.$filter`, line 46) and every other key is left unchanged.
(With a falsy `$filter` value the key survives: see
`claim_C10_counterexample`.) -/
theorem claim_C10_queryParams_mutation :
    ∀ (qp : List (String × String)) (f : String),
      objLookup "$filter" qp = some f → f ≠ "" →
      (GraphJs.buildQueryString qp).2 = objDelete "$filter" qp ∧
      objLookup "$filter" (GraphJs.buildQueryString qp).2 = none ∧
      (∀ k, k ≠ "$filter" →
        objLookup k (GraphJs.buildQueryString qp).2 = objLookup k qp) := by
  intro qp f hf hne
  have hqp : ¬ qp = [] := by
    intro he
    rw [he] at hf
    exact Option.noConfusion hf
  have htr : truthyStr (objLookup "$filter" qp) = true := by
    rw [hf]
    simp [truthyStr, hne]
  have h2 : (GraphJs.buildQueryString qp).2 = objDelete "$filter" qp := by
    simp [GraphJs.buildQueryString, hqp, htr]
  refine ⟨h2, ?_, ?_⟩
  · rw [h2]
    exact objLookup_objDelete_self _ _
  · intro k hk
    rw [h2]
    exact objLookup_objDelete_ne _ _ _ hk

/-- C10 witness: a two-key object loses exactly its `$filter` key. -/
theorem claim_C10_queryParams_mutation_witness :
    (GraphJs.buildQueryString [("$top", "10"), ("$filter", "x")]).2 =
      objDelete "$filter" [("$top", "10"), ("$filter", "x")] ∧
    objLookup "$filter" (GraphJs.buildQueryString [("$top", "10"), ("$filter", "x")]).2 =
      none ∧
    objLookup "$top" (GraphJs.buildQueryString [("$top", "10"), ("$filter", "x")]).2 =
      objLookup "$top" [("$top", "10"), ("$filter", "x")] :=
  ⟨(claim_C10_queryParams_mutation [("$top", "10"), ("$filter", "x")] "x"
      (by decide) (by decide)).1,
   (claim_C10_queryParams_mutation [("$top", "10"), ("$filter", "x")] "x"
      (by decide) (by decide)).2.1,
   (claim_C10_queryParams_mutation [("$top", "10"), ("$filter", "x")] "x"
      (by decide) (by decide)).2.2 "$top" (by decide)⟩

/-- C10 counterexample.  The claim quantifies over every `queryParams`
object containing a `$filter` key; with the falsy value `""` the source's
`if (filter)` guard skips the `delete`, so the caller's object still
holds the `$filter` key after the call. -/
theorem claim_C10_counterexample :
    objLookup "$filter" [("$filter", "")] = some "" ∧
    (GraphJs.buildQueryString [("$filter", "")]).2 = [("$filter", "")] := by
  refine ⟨by decide, by decide⟩

/-- C3 (amended).  `TokenStorage.getValidAccessToken` (multi-account
class of src/unnamed/part_003) returns `null` if and only if: no token
document is stored; OR (multi-account form) the `activeAccount`
reference is falsy or dangling, or the active account's token set lacks
a (truthy) access token, or that token set is within the 5-minute buffer
of expiry and either carries no refresh token (no refresh is even
attempted then — an outcome the original claim omits) or the refresh
attempt fails; OR (legacy form) the analogous conditions on the
top-level token fields.  And whenever a token is returned without any
refresh request having been issued, it is the stored access token of the
resolved token set, whose recorded expiry (when present — an absent
`expires_at` is treated as "not expired" by the multi-account branch's
NaN comparison) lies strictly more than the refresh buffer in the
future. -/
theorem claim_C3_getValidAccessToken :
    ∀ (stored : Option TokensDoc) (env : RefreshOutcome) (now : Int),
      ((TokStore.getValidAccessToken stored env now).token = none ↔
        (stored = none
         ∨ (∃ d accts, stored = some d ∧ d.accounts = some accts ∧
             (truthyStr d.activeAccount = false
              ∨ objLookup (d.activeAccount.getD "") accts = none
              ∨ (∃ ts, objLookup (d.activeAccount.getD "") accts = some ts ∧
                  (truthyStr ts.access_token = false
                   ∨ (TokStore.isExpiredInline now ts.expires_at = true ∧
                       (truthyStr ts.refresh_token = false
                        ∨ (TokStore.refreshAccessToken (some d) env now).token = none))))))
         ∨ (∃ d, stored = some d ∧ d.accounts = none ∧
             (truthyStr d.access_token = false
              ∨ (TokStore.isTokenExpired now d = true ∧
                  (truthyStr d.refresh_token = false
                   ∨ (TokStore.refreshAccessToken (some d) env now).token = none)))))) ∧
      (∀ t, (TokStore.getValidAccessToken stored env now).token = some t →
        (TokStore.getValidAccessToken stored env now).requests = 0 →
        ((∃ d accts ts, stored = some d ∧ d.accounts = some accts ∧
            objLookup (d.activeAccount.getD "") accts = some ts ∧
            TokStore.isExpiredInline now ts.expires_at = false ∧
            ts.access_token = some t ∧
            (∀ e, ts.expires_at = some e → now < e - REFRESH_BUFFER_MS))
         ∨ (∃ d, stored = some d ∧ d.accounts = none ∧
            TokStore.isTokenExpired now d = false ∧ d.access_token = some t ∧
            (∀ e, d.expires_at = some e → now < e - REFRESH_BUFFER_MS)))) := by
  intro stored env now
  rcases stored with _ | d
  · constructor
    · simp [TokStore.getValidAccessToken]
    · intro t ht
      simp [TokStore.getValidAccessToken] at ht
  rcases hacc : d.accounts with _ | accts
  · -- legacy branch
    by_cases hta : truthyStr d.access_token = true
    · by_cases hexp : TokStore.isTokenExpired now d = true
      · by_cases hrt : truthyStr d.refresh_token = true
        · rcases hr : (TokStore.refreshAccessToken (some d) env now).token with _ | tok
          · -- refresh attempted and failed
            constructor
            · refine iff_of_true ?_ ?_
              · simp [TokStore.getValidAccessToken, hacc, hta, hexp, hrt, hr]
              · exact Or.inr (Or.inr ⟨d, rfl, hacc, Or.inr ⟨hexp, Or.inr hr⟩⟩)
            · intro t ht
              simp [TokStore.getValidAccessToken, hacc, hta, hexp, hrt, hr] at ht
          · -- refresh succeeded: one request was made
            have hreq := TokStore.refresh_some_requests (some d) env now tok hr
            constructor
            · refine iff_of_false ?_ ?_
              · simp [TokStore.getValidAccessToken, hacc, hta, hexp, hrt, hr]
              · rintro (h | ⟨d2, accts2, heq, hacc2, hb⟩ | ⟨d2, heq, hacc2, hb⟩)
                · exact Option.noConfusion h
                · obtain rfl : d2 = d := (Option.some.inj heq).symm
                  rw [hacc] at hacc2
                  exact Option.noConfusion hacc2
                · obtain rfl : d2 = d := (Option.some.inj heq).symm
                  rcases hb with hb | ⟨_, hb | hb⟩
                  · rw [hta] at hb
                    exact Bool.noConfusion hb
                  · rw [hrt] at hb
                    exact Bool.noConfusion hb
                  · rw [hr] at hb
                    exact Option.noConfusion hb
            · intro t ht hq
              simp [TokStore.getValidAccessToken, hacc, hta, hexp, hrt, hr, hreq] at hq
        · -- expired, no refresh token: null with zero requests
          constructor
          · refine iff_of_true ?_ ?_
            · simp [TokStore.getValidAccessToken, hacc, hta, hexp, hrt]
            · exact Or.inr (Or.inr ⟨d, rfl, hacc,
                Or.inr ⟨hexp, Or.inl (by simpa using hrt)⟩⟩)
          · intro t ht
            simp [TokStore.getValidAccessToken, hacc, hta, hexp, hrt] at ht
      · -- not expired: the stored access token is returned
        obtain ⟨s, hs, hsne⟩ := (truthyStr_true_iff d.access_token).mp hta
        have htss : truthyStr (some s) = true := by simp [truthyStr, hsne]
        constructor
        · refine iff_of_false ?_ ?_
          · simp [TokStore.getValidAccessToken, hacc, hta, hexp, hs, htss]
          · rintro (h | ⟨d2, accts2, heq, hacc2, hb⟩ | ⟨d2, heq, hacc2, hb⟩)
            · exact Option.noConfusion h
            · obtain rfl : d2 = d := (Option.some.inj heq).symm
              rw [hacc] at hacc2
              exact Option.noConfusion hacc2
            · obtain rfl : d2 = d := (Option.some.inj heq).symm
              rcases hb with hb | ⟨hb, -⟩
              · rw [hta] at hb
                exact Bool.noConfusion hb
              · rw [hb] at hexp
                exact hexp rfl
        · intro t ht hq
          right
          refine ⟨d, rfl, hacc, by simpa using hexp, ?_, ?_⟩
          · have : (TokStore.getValidAccessToken (some d) env now).token = d.access_token := by
              simp [TokStore.getValidAccessToken, hacc, hta, hexp]
            rw [this] at ht
            exact ht
          · exact TokStore.isTokenExpired_false_lt now d (by simpa using hexp)
    · -- no legacy access token
      constructor
      · refine iff_of_true ?_ ?_
        · simp [TokStore.getValidAccessToken, hacc, hta]
        · exact Or.inr (Or.inr ⟨d, rfl, hacc, Or.inl (by simpa using hta)⟩)
      · intro t ht
        simp [TokStore.getValidAccessToken, hacc, hta] at ht
  · -- multi-account branch
    by_cases hact : truthyStr d.activeAccount = true
    · rcases hl : objLookup (d.activeAccount.getD "") accts with _ | ts
      · -- dangling active reference
        constructor
        · refine iff_of_true ?_ ?_
          · simp [TokStore.getValidAccessToken, hacc, hact, hl]
          · exact Or.inr (Or.inl ⟨d, accts, rfl, hacc, Or.inr (Or.inl hl)⟩)
        · intro t ht
          simp [TokStore.getValidAccessToken, hacc, hact, hl] at ht
      · by_cases hta : truthyStr ts.access_token = true
        · by_cases hexp : TokStore.isExpiredInline now ts.expires_at = true
          · by_cases hrt : truthyStr ts.refresh_token = true
            · rcases hr : (TokStore.refreshAccessToken (some d) env now).token with _ | tok
              · constructor
                · refine iff_of_true ?_ ?_
                  · simp [TokStore.getValidAccessToken, hacc, hact, hl, hta, hexp, hrt, hr]
                  · exact Or.inr (Or.inl ⟨d, accts, rfl, hacc, Or.inr (Or.inr
                      ⟨ts, hl, Or.inr ⟨hexp, Or.inr hr⟩⟩)⟩)
                · intro t ht
                  simp [TokStore.getValidAccessToken, hacc, hact, hl, hta, hexp, hrt, hr] at ht
              · have hreq := TokStore.refresh_some_requests (some d) env now tok hr
                constructor
                · refine iff_of_false ?_ ?_
                  · simp [TokStore.getValidAccessToken, hacc, hact, hl, hta, hexp, hrt, hr]
                  · rintro (h | ⟨d2, accts2, heq, hacc2, hb⟩ | ⟨d2, heq, hacc2, hb⟩)
                    · exact Option.noConfusion h
                    · obtain rfl : d2 = d := (Option.some.inj heq).symm
                      obtain rfl : accts2 = accts :=
                        Option.some.inj ((hacc.symm.trans hacc2).symm)
                      rcases hb with hb | hb | ⟨ts2, hts2, hb⟩
                      · rw [hact] at hb
                        exact Bool.noConfusion hb
                      · rw [hl] at hb
                        exact Option.noConfusion hb
                      · obtain rfl : ts2 = ts := (Option.some.inj (hl.symm.trans hts2)).symm
                        rcases hb with hb | ⟨-, hb | hb⟩
                        · rw [hta] at hb
                          exact Bool.noConfusion hb
                        · rw [hrt] at hb
                          exact Bool.noConfusion hb
                        · rw [hr] at hb
                          exact Option.noConfusion hb
                    · obtain rfl : d2 = d := (Option.some.inj heq).symm
                      rw [hacc] at hacc2
                      exact Option.noConfusion hacc2
                · intro t ht hq
                  simp [TokStore.getValidAccessToken, hacc, hact, hl, hta, hexp, hrt, hr,
                    hreq] at hq
            · constructor
              · refine iff_of_true ?_ ?_
                · simp [TokStore.getValidAccessToken, hacc, hact, hl, hta, hexp, hrt]
                · exact Or.inr (Or.inl ⟨d, accts, rfl, hacc, Or.inr (Or.inr
                    ⟨ts, hl, Or.inr ⟨hexp, Or.inl (by simpa using hrt)⟩⟩)⟩)
              · intro t ht
                simp [TokStore.getValidAccessToken, hacc, hact, hl, hta, hexp, hrt] at ht
          · -- active token not expired: returned with zero requests
            obtain ⟨s, hs, hsne⟩ := (truthyStr_true_iff ts.access_token).mp hta
            have htss : truthyStr (some s) = true := by simp [truthyStr, hsne]
            constructor
            · refine iff_of_false ?_ ?_
              · simp [TokStore.getValidAccessToken, hacc, hact, hl, hta, hexp, hs, htss]
              · rintro (h | ⟨d2, accts2, heq, hacc2, hb⟩ | ⟨d2, heq, hacc2, hb⟩)
                · exact Option.noConfusion h
                · obtain rfl : d2 = d := (Option.some.inj heq).symm
                  obtain rfl : accts2 = accts :=
                    Option.some.inj ((hacc.symm.trans hacc2).symm)
                  rcases hb with hb | hb | ⟨ts2, hts2, hb⟩
                  · rw [hact] at hb
                    exact Bool.noConfusion hb
                  · rw [hl] at hb
                    exact Option.noConfusion hb
                  · obtain rfl : ts2 = ts := (Option.some.inj (hl.symm.trans hts2)).symm
                    rcases hb with hb | ⟨hb, -⟩
                    · rw [hta] at hb
                      exact Bool.noConfusion hb
                    · rw [hb] at hexp
                      exact hexp rfl
                · obtain rfl : d2 = d := (Option.some.inj heq).symm
                  rw [hacc] at hacc2
                  exact Option.noConfusion hacc2
            · intro t ht hq
              left
              refine ⟨d, accts, ts, rfl, hacc, hl, by simpa using hexp, ?_, ?_⟩
              · have : (TokStore.getValidAccessToken (some d) env now).token =
                    ts.access_token := by
                  simp [TokStore.getValidAccessToken, hacc, hact, hl, hta, hexp]
                rw [this] at ht
                exact ht
              · intro e he
                apply TokStore.isExpiredInline_false_lt now e
                rw [← he]
                simpa using hexp
        · constructor
          · refine iff_of_true ?_ ?_
            · simp [TokStore.getValidAccessToken, hacc, hact, hl, hta]
            · exact Or.inr (Or.inl ⟨d, accts, rfl, hacc, Or.inr (Or.inr
                ⟨ts, hl, Or.inl (by simpa using hta)⟩)⟩)
          · intro t ht
            simp [TokStore.getValidAccessToken, hacc, hact, hl, hta] at ht
    · -- falsy activeAccount
      constructor
      · refine iff_of_true ?_ ?_
        · simp [TokStore.getValidAccessToken, hacc, hact]
        · exact Or.inr (Or.inl ⟨d, accts, rfl, hacc, Or.inl (by simpa using hact)⟩)
      · intro t ht
        simp [TokStore.getValidAccessToken, hacc, hact] at ht

/-- C3 witness: the valid-active-account fixture at `now = 0` returns
its stored access token with zero refresh requests, and the token's
expiry is beyond the buffer. -/
theorem claim_C3_getValidAccessToken_witness :
    (∃ d accts ts, (some docValidActive : Option TokensDoc) = some d ∧
        d.accounts = some accts ∧
        objLookup (d.activeAccount.getD "") accts = some ts ∧
        TokStore.isExpiredInline 0 ts.expires_at = false ∧
        ts.access_token = some "access-a" ∧
        (∀ e, ts.expires_at = some e → (0 : Int) < e - REFRESH_BUFFER_MS))
    ∨ (∃ d, (some docValidActive : Option TokensDoc) = some d ∧ d.accounts = none ∧
        TokStore.isTokenExpired 0 d = false ∧ d.access_token = some "access-a" ∧
        (∀ e, d.expires_at = some e → (0 : Int) < e - REFRESH_BUFFER_MS)) :=
  (claim_C3_getValidAccessToken (some docValidActive) RefreshOutcome.failure 0).2
    "access-a" (by decide) (by decide)

/-- C3 counterexample.  The claim as stated ("null iff no account, or
dangling active reference, or refresh attempted and failed") is false:
`docC3` has a stored document and its active account `c@x.com` present
in `accounts`, yet `getValidAccessToken` returns null without attempting
any refresh (zero token-endpoint requests, even though the environment's
refresh would have succeeded): the active token set is expired and
simply has no refresh token. -/
theorem claim_C3_counterexample :
    (TokStore.getValidAccessToken (some docC3) (RefreshOutcome.success respFresh true)
        1000000).token = none ∧
    (TokStore.getValidAccessToken (some docC3) (RefreshOutcome.success respFresh true)
        1000000).requests = 0 ∧
    docC3.accounts ≠ none ∧
    objLookup "c@x.com" (docC3.accounts.getD []) = some tsNoRefresh ∧
    docC3.activeAccount = some "c@x.com" := by
  refine ⟨by decide, by decide, by decide, by decide, by decide⟩

/-- C9 witness: the legacy fixture reports `["default"]`; the two-account
fixture reports its keys. -/
theorem claim_C9_getAllAccounts_witness :
    TokStore.getAllAccounts (some docLegacy) = ["default"] ∧
    TokStore.getAllAccounts (some docC5) = ["a@x.com", "b@x.com"] := by
  have h1 := claim_C9_getAllAccounts.1 docLegacy rfl (by decide)
  have h2 := claim_C9_getAllAccounts.2 docC5
    [("a@x.com", tsValidA), ("b@x.com", tsExpiredB)] rfl
  exact ⟨h1, by rw [h2]; rfl⟩

end OutlookMCP
